import Mathlib

/-!
Verification of the numerical core of the Roy-Ahmed M.abscessus modeling
repository: the Needleman-Wunsch global sequence aligner
(`scripts/setup_gyrase_model.py` / `scripts/generate_alignment.py`),
the sequence-identity computation, the Kabsch rotation construction
(`scripts/structural_alignment.py` / `scripts/assemble_tetramer.py`),
the RMSD computation, and the interface-contact finder
(`scripts/generate_constraints.py`).

Embedding choices:
* sequences are `List Char` (Python strings), scores are `Int` (the
  scripts only pass integer scoring parameters, on which Python float
  and int arithmetic are exact);
* 3-D coordinates are `Fin 3 → ℚ`, an exact stand-in for numpy float
  arithmetic;
* `math.sqrt` / `np.sqrt` never feed back into control flow except via
  comparisons `sqrt s < c`, which the embedding renders exactly as
  `0 ≤ c ∧ s < c²` (square root is strictly monotone on nonnegative
  reals, and `sqrt s < c` is false for `c < 0`); squared distances are
  carried where the scripts carry distances.
-/

namespace SetupGyraseModel

/-- The gap symbol used by both aligners. -/
def GAP : Char := '-'

/-- Character of `s` at (0-based) index `i`; the default is irrelevant
because every use below is in range (`i < s.length`). -/
def chAt (s : List Char) (i : Nat) : Char := s.getD i 'A'

/-- Substitution score of cell `(i, j)` (1-based, as in the Python
`match if seq1[i-1] == seq2[j-1] else mismatch`). -/
def subScore (s1 s2 : List Char) (matc mism : Int) (i j : Nat) : Int :=
  if chAt s1 (i - 1) = chAt s2 (j - 1) then matc else mism

/-- The Needleman-Wunsch score table of `needleman_wunsch`
(`setup_gyrase_model.py` lines 68-81): `score[i][0] = i*gap`,
`score[0][j] = j*gap`, and for `i, j ≥ 1` the max of the diagonal,
delete (up) and insert (left) candidates. -/
def nwScore (s1 s2 : List Char) (matc mism gap : Int) : Nat → Nat → Int
  | i, 0 => (i : Int) * gap
  | 0, j + 1 => ((j : Int) + 1) * gap
  | i + 1, j + 1 =>
    max (nwScore s1 s2 matc mism gap i j + subScore s1 s2 matc mism (i + 1) (j + 1))
      (max (nwScore s1 s2 matc mism gap i (j + 1) + gap)
        (nwScore s1 s2 matc mism gap (i + 1) j + gap))

/-- Traceback loop of `needleman_wunsch` (`setup_gyrase_model.py`
lines 83-107), parameterized by the score table `tbl` (instantiated
with `nwScore` in `needleman_wunsch` below).  The Python loop appends
symbols and reverses at the end; the recursion here builds the same
strings front-to-back.  The final fallback `([], [])` corresponds to
the loop state `i > 0, j = 0` with the up-move test false; for
`tbl = nwScore ...` that state is unreachable because
`score[i][0] = score[i-1][0] + gap` always holds (lemma
`nwScore_up_at_zero` below), so the fallback is dead code of the
embedding (in Python it would read `seq2[-1]` and drive `j` negative,
but that line is never reached). -/
def nwTraceback (s1 s2 : List Char) (matc mism gap : Int)
    (tbl : Nat → Nat → Int) : Nat → Nat → List Char × List Char
  | i, j =>
    if i = 0 ∧ j = 0 then ([], [])
    else if 0 < i ∧ 0 < j ∧
        tbl i j = tbl (i - 1) (j - 1) + subScore s1 s2 matc mism i j then
      ((nwTraceback s1 s2 matc mism gap tbl (i - 1) (j - 1)).1 ++ [chAt s1 (i - 1)],
        (nwTraceback s1 s2 matc mism gap tbl (i - 1) (j - 1)).2 ++ [chAt s2 (j - 1)])
    else if 0 < i ∧ tbl i j = tbl (i - 1) j + gap then
      ((nwTraceback s1 s2 matc mism gap tbl (i - 1) j).1 ++ [chAt s1 (i - 1)],
        (nwTraceback s1 s2 matc mism gap tbl (i - 1) j).2 ++ [GAP])
    else if 0 < j then
      ((nwTraceback s1 s2 matc mism gap tbl i (j - 1)).1 ++ [GAP],
        (nwTraceback s1 s2 matc mism gap tbl i (j - 1)).2 ++ [chAt s2 (j - 1)])
    else ([], [])
  termination_by i j => i + j
  decreasing_by all_goals omega

/-- `needleman_wunsch(seq1, seq2, match, mismatch, gap)`
(`setup_gyrase_model.py` lines 64-107): fill the score table, trace
back from `(m, n)`, return the pair of aligned strings. -/
def needleman_wunsch (s1 s2 : List Char) (matc mism gap : Int) :
    List Char × List Char :=
  nwTraceback s1 s2 matc mism gap (nwScore s1 s2 matc mism gap)
    s1.length s2.length

/-- `calculate_identity(aligned1, aligned2)` (`setup_gyrase_model.py`
lines 109-113): matches are columns with equal non-gap symbols, the
denominator is the number of non-gap symbols of `aligned1`
(`len(aligned1.replace('-', ''))`), the result is a percentage,
0 when the denominator is 0. -/
def calculate_identity (a1 a2 : List Char) : ℚ :=
  let mtc := ((a1.zip a2).filter fun p => p.1 = p.2 ∧ p.1 ≠ GAP).length
  let len := (a1.filter fun c => c ≠ GAP).length
  if 0 < len then (mtc : ℚ) / (len : ℚ) * 100 else 0

end SetupGyraseModel

namespace GenerateAlignment

open SetupGyraseModel

/-- `simple_align(seq1, seq2)` (`generate_alignment.py` lines 44-105):
the same table-fill and traceback as `needleman_wunsch` (the diagonal
candidate `expected_diagonal` is computed by the same formula), with
the scoring parameters fixed to `match_score = 2`,
`mismatch_score = -1`, `gap_penalty = -2`. -/
def simple_align (s1 s2 : List Char) : List Char × List Char :=
  needleman_wunsch s1 s2 2 (-1) (-2)

/-- `calculate_identity(aligned1, aligned2)` (`generate_alignment.py`
lines 180-184): same matches count, but the denominator is the larger
of the two non-gap symbol counts. -/
def calculate_identity (a1 a2 : List Char) : ℚ :=
  let mtc := ((a1.zip a2).filter fun p => p.1 = p.2 ∧ p.1 ≠ GAP).length
  let len := max ((a1.filter fun c => c ≠ GAP).length)
    ((a2.filter fun c => c ≠ GAP).length)
  if 0 < len then (mtc : ℚ) / (len : ℚ) * 100 else 0

end GenerateAlignment

namespace SetupGyraseModel

/-- Column score used to re-score a finished alignment, written from
the claim: match/mismatch for two non-gap symbols, the gap penalty for
any column containing a gap. -/
def colScore (matc mism gap : Int) (c1 c2 : Char) : Int :=
  if c1 = GAP ∨ c2 = GAP then gap
  else if c1 = c2 then matc else mism

/-- Total re-score of an alignment, column by column (written from the
claim; trailing symbols of the longer string are ignored, but the
aligner only ever produces equal-length strings). -/
def rescoreColumns (matc mism gap : Int) : List Char → List Char → Int
  | c1 :: t1, c2 :: t2 =>
    colScore matc mism gap c1 c2 + rescoreColumns matc mism gap t1 t2
  | _, _ => 0

/-- Identity as the claim words it: matching non-gap columns over
columns where neither symbol is a gap, as a percentage, 0 when the
denominator is 0.  Stated for comparison with the two
`calculate_identity` functions of the source. -/
def identity_claimed (a1 a2 : List Char) : ℚ :=
  let mtc := ((a1.zip a2).filter fun p => p.1 = p.2 ∧ p.1 ≠ GAP).length
  let len := ((a1.zip a2).filter fun p => p.1 ≠ GAP ∧ p.2 ≠ GAP).length
  if 0 < len then (mtc : ℚ) / (len : ℚ) * 100 else 0

/-- Identity as the amended claim words it for `setup_gyrase_model.py`:
the number of aligned columns whose two symbols are equal and non-gap,
divided by the number of non-gap symbols of the first aligned string,
times 100; 0 when that count is 0. -/
def identity_amended_first (a1 a2 : List Char) : ℚ :=
  let mtc := (a1.zip a2).countP fun p => p.1 = p.2 ∧ p.1 ≠ GAP
  let len := a1.countP fun c => c ≠ GAP
  if 0 < len then (mtc : ℚ) / (len : ℚ) * 100 else 0

/-- Identity as the amended claim words it for `generate_alignment.py`:
the same matching-column count divided by the larger of the two
non-gap symbol counts, times 100; 0 when that count is 0. -/
def identity_amended_longer (a1 a2 : List Char) : ℚ :=
  let mtc := (a1.zip a2).countP fun p => p.1 = p.2 ∧ p.1 ≠ GAP
  let len := max (a1.countP fun c => c ≠ GAP) (a2.countP fun c => c ≠ GAP)
  if 0 < len then (mtc : ℚ) / (len : ℚ) * 100 else 0

end SetupGyraseModel

namespace StructuralAlignment

/-- 3×3 rational matrices standing in for numpy's 3×3 float arrays. -/
abbrev Mat3 := Matrix (Fin 3) (Fin 3) ℚ

/-- A 3-D point (one row of an (N,3) numpy array). -/
abbrev Pt := Fin 3 → ℚ

/-- The output triple `U, S, Vt` of `np.linalg.svd` on a 3×3 matrix.
The SVD itself lives in an external library (numpy/LAPACK); the
embedding treats it as a caller-supplied oracle and states the
orthogonality its output enjoys as hypotheses where needed. -/
structure SVD3 where
  U : Mat3
  S : Fin 3 → ℚ
  Vt : Mat3

/-- Reflection correction and rotation of `kabsch_align`
(`structural_alignment.py` lines 53-59; identically
`assemble_tetramer.py` lines 63-67): `d = det(Vt.T @ U.T)`; if
`d < 0` the last row of `Vt` is negated; `R = Vt.T @ U.T`. -/
def kabsch_rotation (U Vt : Mat3) : Mat3 :=
  if (Vt.transpose * U.transpose).det < 0 then
    (Matrix.updateRow Vt 2 (-(Vt 2))).transpose * U.transpose
  else
    Vt.transpose * U.transpose

/-- Centroid of a point list (`np.mean(P, axis=0)`); for the empty
list rational division by zero yields 0 where numpy would warn and
produce nan — all uses below are on nonempty lists. -/
def centroid (P : List Pt) : Pt :=
  fun a => (P.map fun p => p a).sum / (P.length : ℚ)

/-- Cross-covariance `H = P_centered.T @ Q_centered`
(`structural_alignment.py` line 48): entry `(a, b)` is
`Σ_k Pc[k][a] * Qc[k][b]`.  The matrix product requires the two point
counts to match (numpy raises a shape ValueError otherwise);
`kabsch_align` performs that gate. -/
def crossCov (Pc Qc : List Pt) : Mat3 :=
  Matrix.of fun a b => ((Pc.zip Qc).map fun pq => pq.1 a * pq.2 b).sum

/-- `kabsch_align(P, Q)` (`structural_alignment.py` lines 33-64)
parameterized by the external SVD routine: center both point sets,
compute `H`, run the SVD, apply the reflection correction, return
`(R, t)`.  The `.error` branch models the ValueError numpy's
`@`-product raises when the point counts differ (shapes `(3,p)` and
`(q,3)` with `p ≠ q`); no other validation exists in the source — in
particular there is no point-count (N ≥ 3) check. -/
def kabsch_align (svd : Mat3 → SVD3) (P Q : List Pt) :
    Except String (Mat3 × Pt) :=
  if P.length = Q.length then
    let cP := centroid P
    let cQ := centroid Q
    let Pc := P.map fun p => p - cP
    let Qc := Q.map fun q => q - cQ
    let o := svd (crossCov Pc Qc)
    let R := kabsch_rotation o.U o.Vt
    Except.ok (R, cQ - R.mulVec cP)
  else Except.error "shape mismatch in matmul"

/-- Squared Euclidean distance between two points. -/
def sqDist (p q : Pt) : ℚ := ∑ a, (p a - q a) ^ 2

/-- `calculate_rmsd(P, Q)` (`structural_alignment.py` lines 86-89)
computes `np.sqrt(np.mean(np.sum((P - Q)**2, axis=1)))`.  The
embedding returns the mean of squared distances — the value under the
square root, which `np.sqrt` (total and strictly monotone on
nonnegative input) turns into the RMSD — and `none` exactly where
numpy's broadcasting rejects `P - Q`: shapes `(p,3)` and `(q,3)`
subtract iff `p = q`, `p = 1` or `q = 1` (a single point is broadcast
against the whole other set, and the mean then runs over
`max p q` rows). -/
def calculate_rmsd_sq (P Q : List Pt) : Option ℚ :=
  if P.length = Q.length then
    some (((P.zip Q).map fun pq => sqDist pq.1 pq.2).sum / (P.length : ℚ))
  else if P.length = 1 then
    some ((Q.map fun q => sqDist (P.headD 0) q).sum / (Q.length : ℚ))
  else if Q.length = 1 then
    some ((P.map fun p => sqDist p (Q.headD 0)).sum / (P.length : ℚ))
  else none

/-- A trivial stand-in SVD routine (all factors the identity), used
only to instantiate witnesses. -/
def svdTriv : Mat3 → SVD3 := fun _ => ⟨1, fun _ => 1, 1⟩

/-- Concrete points for witnesses. -/
def ptEx0 : Pt := ![0, 0, 0]

def ptEx1 : Pt := ![1, 0, 0]

def ptEx2 : Pt := ![0, 1, 0]

def ptEx3 : Pt := ![0, 0, 1]

end StructuralAlignment

namespace GenerateConstraints

open StructuralAlignment (Pt sqDist)

/-- The atom-coordinate mapping produced by `read_pdb_coordinates`:
chain id → residue number → atom name → coordinate, with Python-dict
insertion order embedded as nested association lists. -/
abbrev Coords := List (String × List (Nat × List (String × Pt)))

/-- One entry of the list returned by `find_interface_contacts`; the
source stores the distance, the embedding stores its square (see the
file comment on square roots). -/
structure Contact where
  chain1 : String
  res1 : Nat
  atom1 : String
  chain2 : String
  res2 : Nat
  atom2 : String
  dist_sq : ℚ
deriving DecidableEq, Repr

/-- The hard-coded backbone/CB atom filter of
`find_interface_contacts` (`generate_constraints.py` lines 73 and
78). -/
def backboneAtoms : List String := ["CA", "CB", "N", "C", "O"]

/-- `find_interface_contacts(coords, distance_cutoff)`
(`generate_constraints.py` lines 53-94): with fewer than two chains
the result is the empty list; otherwise the nested loops run over the
residues and atoms of the first two chains only, skip atoms outside
`backboneAtoms`, and keep a pair iff its distance is strictly below
the cutoff.  The source's `dist < cutoff` on `dist = sqrt(sq)` is
embedded exactly as `0 ≤ cutoff ∧ sq < cutoff²`. -/
def find_interface_contacts (coords : Coords) (cutoff : ℚ) :
    List Contact :=
  match coords with
  | (ca, resA) :: (cb, resB) :: _ =>
    resA.flatMap fun r1 =>
      r1.2.flatMap fun a1 =>
        if a1.1 ∈ backboneAtoms then
          resB.flatMap fun r2 =>
            r2.2.filterMap fun a2 =>
              if a2.1 ∈ backboneAtoms ∧ 0 ≤ cutoff ∧
                  sqDist a1.2 a2.2 < cutoff ^ 2 then
                some ⟨ca, r1.1, a1.1, cb, r2.1, a2.1, sqDist a1.2 a2.2⟩
              else none
        else []
  | _ => []

/-- Concrete two-chain input used to witness the contact-finder
theorems: chain A has one residue with a CA atom at the origin, chain
B one residue with a CA atom at distance 3 on the x-axis. -/
def coordsEx : Coords :=
  [("A", [(1, [("CA", ![0, 0, 0])])]),
   ("B", [(2, [("CA", ![3, 0, 0])])])]

/-- The single contact `find_interface_contacts coordsEx` produces for
any cutoff above 3. -/
def contactEx : Contact :=
  ⟨"A", 1, "CA", "B", 2, "CA", 9⟩

end GenerateConstraints

namespace SetupGyraseModel

/-- The first arm of `nwScore` for every `i`: `score[i][0] = i·gap`. -/
theorem nwScore_zero_right (s1 s2 : List Char) (matc mism gap : Int)
    (i : Nat) : nwScore s1 s2 matc mism gap i 0 = (i : Int) * gap := by
  cases i <;> simp [nwScore]

/-- The second arm of `nwScore` for every `j`: `score[0][j] = j·gap`. -/
theorem nwScore_zero_left (s1 s2 : List Char) (matc mism gap : Int)
    (j : Nat) : nwScore s1 s2 matc mism gap 0 j = (j : Int) * gap := by
  cases j with
  | zero => simp [nwScore]
  | succ j => simp [nwScore]

/-- The recurrence of `nwScore` at an interior cell, in the 1-based
form used by the traceback. -/
theorem nwScore_succ (s1 s2 : List Char) (matc mism gap : Int)
    (i j : Nat) (hi : 0 < i) (hj : 0 < j) :
    nwScore s1 s2 matc mism gap i j =
      max (nwScore s1 s2 matc mism gap (i - 1) (j - 1) +
          subScore s1 s2 matc mism i j)
        (max (nwScore s1 s2 matc mism gap (i - 1) j + gap)
          (nwScore s1 s2 matc mism gap i (j - 1) + gap)) := by
  obtain ⟨i, rfl⟩ := Nat.exists_eq_add_of_lt hi
  obtain ⟨j, rfl⟩ := Nat.exists_eq_add_of_lt hj
  simp only [Nat.zero_add, Nat.add_sub_cancel]
  rw [nwScore]

/-- In the first column the up-move always reproduces the cell value:
`score[i][0] = score[i-1][0] + gap` for `i ≥ 1`.  This is why the
traceback's final `else` is unreachable. -/
theorem nwScore_up_at_zero (s1 s2 : List Char) (matc mism gap : Int)
    (i : Nat) (hi : 0 < i) :
    nwScore s1 s2 matc mism gap i 0 =
      nwScore s1 s2 matc mism gap (i - 1) 0 + gap := by
  rw [nwScore_zero_right, nwScore_zero_right]
  have h : ((i - 1 : Nat) : Int) = (i : Int) - 1 := by
    omega
  rw [h]
  ring

/-- A three-way max equals one of its arguments. -/
theorem max3_cases (a b c : Int) :
    max a (max b c) = a ∨ max a (max b c) = b ∨ max a (max b c) = c := by
  rcases max_choice a (max b c) with h | h
  · exact Or.inl h
  · rcases max_choice b c with h' | h' <;> rw [h, h']
    · exact Or.inr (Or.inl rfl)
    · exact Or.inr (Or.inr rfl)

/-- If neither the diagonal nor the up candidate reproduces an
interior cell's value, the left candidate does (the cell is the max of
the three). -/
theorem nwScore_left_forced (s1 s2 : List Char) (matc mism gap : Int)
    (i j : Nat)
    (hd : ¬(0 < i ∧ 0 < j ∧ nwScore s1 s2 matc mism gap i j =
      nwScore s1 s2 matc mism gap (i - 1) (j - 1) + subScore s1 s2 matc mism i j))
    (hu : ¬(0 < i ∧ nwScore s1 s2 matc mism gap i j =
      nwScore s1 s2 matc mism gap (i - 1) j + gap))
    (hj : 0 < j) :
    nwScore s1 s2 matc mism gap i j =
      nwScore s1 s2 matc mism gap i (j - 1) + gap := by
  rcases Nat.eq_zero_or_pos i with hi | hi
  · subst hi
    rw [nwScore_zero_left, nwScore_zero_left]
    have h : ((j - 1 : Nat) : Int) = (j : Int) - 1 := by omega
    rw [h]
    ring
  · have hrec := nwScore_succ s1 s2 matc mism gap i j hi hj
    rcases max3_cases (nwScore s1 s2 matc mism gap (i - 1) (j - 1) +
        subScore s1 s2 matc mism i j)
        (nwScore s1 s2 matc mism gap (i - 1) j + gap)
        (nwScore s1 s2 matc mism gap i (j - 1) + gap) with h | h | h
    · exact absurd ⟨hi, hj, hrec.trans h⟩ hd
    · exact absurd ⟨hi, hrec.trans h⟩ hu
    · exact hrec.trans h

/-- `s.take k ++ [s[k]] = s.take (k+1)` phrased with `chAt`. -/
theorem take_concat_chAt (s : List Char) :
    ∀ k, k < s.length → s.take k ++ [chAt s k] = s.take (k + 1) := by
  induction s with
  | nil => intro k hk; simp at hk
  | cons c t ih =>
    intro k hk
    cases k with
    | zero => simp [chAt]
    | succ k =>
      have hch : chAt (c :: t) (k + 1) = chAt t k := by simp [chAt]
      simp only [List.take_succ_cons, List.cons_append, hch]
      rw [ih k (by simpa using hk)]

/-- Variant of `take_concat_chAt` in the `i - 1` form used by the
traceback. -/
theorem take_concat_chAt_pred (s : List Char) (i : Nat) (h0 : 0 < i)
    (h : i ≤ s.length) :
    s.take (i - 1) ++ [chAt s (i - 1)] = s.take i := by
  have hlt : i - 1 < s.length := by omega
  have := take_concat_chAt s (i - 1) hlt
  rwa [show i - 1 + 1 = i from by omega] at this

/-- Characters read from a gap-free sequence are not the gap symbol. -/
theorem chAt_ne_GAP (s : List Char) (hs : GAP ∉ s) (i : Nat)
    (hi : i < s.length) : chAt s i ≠ GAP := by
  intro h
  apply hs
  rw [← h]
  rw [chAt, List.getD_eq_getElem s 'A' hi]
  exact List.getElem_mem hi

/-- Re-scoring distributes over appending one column to an alignment
of equal-length strings. -/
theorem rescoreColumns_concat (matc mism gap : Int) :
    ∀ a1 a2 : List Char, ∀ c1 c2 : Char, a1.length = a2.length →
      rescoreColumns matc mism gap (a1 ++ [c1]) (a2 ++ [c2]) =
        rescoreColumns matc mism gap a1 a2 + colScore matc mism gap c1 c2 := by
  intro a1
  induction a1 with
  | nil =>
    intro a2 c1 c2 h
    have : a2 = [] := by
      cases a2 with
      | nil => rfl
      | cons x t => simp at h
    subst this
    simp [rescoreColumns]
  | cons x t ih =>
    intro a2 c1 c2 h
    cases a2 with
    | nil => simp at h
    | cons y u =>
      simp only [List.cons_append, rescoreColumns, List.append_eq]
      rw [ih u c1 c2 (by simpa using h)]
      ring

/-- The invariant carried by the traceback loop of `needleman_wunsch`,
proved by strong induction on `i + j`: the two accumulated strings
have equal length; deleting gaps from them recovers `seq1[:i]` and
`seq2[:j]` (when the inputs are gap-free, i.e. over the residue
alphabet); and their column-by-column re-score equals `score[i][j]`. -/
theorem nwTraceback_inv (s1 s2 : List Char) (matc mism gap : Int) :
    ∀ n i j, i + j = n → i ≤ s1.length → j ≤ s2.length →
      ((nwTraceback s1 s2 matc mism gap (nwScore s1 s2 matc mism gap) i j).1.length =
        (nwTraceback s1 s2 matc mism gap (nwScore s1 s2 matc mism gap) i j).2.length) ∧
      (GAP ∉ s1 →
        (nwTraceback s1 s2 matc mism gap (nwScore s1 s2 matc mism gap) i j).1.filter
          (fun c => c ≠ GAP) = s1.take i) ∧
      (GAP ∉ s2 →
        (nwTraceback s1 s2 matc mism gap (nwScore s1 s2 matc mism gap) i j).2.filter
          (fun c => c ≠ GAP) = s2.take j) ∧
      (GAP ∉ s1 → GAP ∉ s2 →
        rescoreColumns matc mism gap
          (nwTraceback s1 s2 matc mism gap (nwScore s1 s2 matc mism gap) i j).1
          (nwTraceback s1 s2 matc mism gap (nwScore s1 s2 matc mism gap) i j).2 =
          nwScore s1 s2 matc mism gap i j) := by
  intro n
  induction n using Nat.strong_induction_on with
  | _ n ih =>
    intro i j hn hi hj
    rw [nwTraceback]
    by_cases h00 : i = 0 ∧ j = 0
    · obtain ⟨rfl, rfl⟩ := h00
      rw [if_pos ⟨rfl, rfl⟩]
      refine ⟨rfl, fun _ => by simp, fun _ => by simp, fun _ _ => ?_⟩
      rw [nwScore_zero_right]
      simp [rescoreColumns]
    · rw [if_neg h00]
      by_cases hd : 0 < i ∧ 0 < j ∧ nwScore s1 s2 matc mism gap i j =
          nwScore s1 s2 matc mism gap (i - 1) (j - 1) +
            subScore s1 s2 matc mism i j
      · rw [if_pos hd]
        obtain ⟨hi0, hj0, heq⟩ := hd
        obtain ⟨ih1, ih2, ih3, ih4⟩ := ih (i - 1 + (j - 1)) (by omega)
          (i - 1) (j - 1) rfl (by omega) (by omega)
        have hc1 : i - 1 < s1.length := by omega
        have hc2 : j - 1 < s2.length := by omega
        refine ⟨by simp [ih1], fun hg1 => ?_, fun hg2 => ?_, fun hg1 hg2 => ?_⟩
        · rw [List.filter_append, ih2 hg1]
          simp only [List.filter_cons, List.filter_nil,
            decide_eq_true_eq, if_pos (chAt_ne_GAP s1 hg1 _ hc1)]
          exact take_concat_chAt_pred s1 i hi0 hi
        · rw [List.filter_append, ih3 hg2]
          simp only [List.filter_cons, List.filter_nil,
            decide_eq_true_eq, if_pos (chAt_ne_GAP s2 hg2 _ hc2)]
          exact take_concat_chAt_pred s2 j hj0 hj
        · rw [rescoreColumns_concat matc mism gap _ _ _ _ ih1, ih4 hg1 hg2, heq]
          congr 1
          rw [colScore, if_neg, subScore]
          push_neg
          exact ⟨chAt_ne_GAP s1 hg1 _ hc1, chAt_ne_GAP s2 hg2 _ hc2⟩
      · rw [if_neg hd]
        by_cases hu : 0 < i ∧ nwScore s1 s2 matc mism gap i j =
            nwScore s1 s2 matc mism gap (i - 1) j + gap
        · rw [if_pos hu]
          obtain ⟨hi0, hequ⟩ := hu
          obtain ⟨ih1, ih2, ih3, ih4⟩ := ih (i - 1 + j) (by omega)
            (i - 1) j rfl (by omega) hj
          have hc1 : i - 1 < s1.length := by omega
          refine ⟨by simp [ih1], fun hg1 => ?_, fun hg2 => ?_, fun hg1 hg2 => ?_⟩
          · rw [List.filter_append, ih2 hg1]
            simp only [List.filter_cons, List.filter_nil,
              decide_eq_true_eq, if_pos (chAt_ne_GAP s1 hg1 _ hc1)]
            exact take_concat_chAt_pred s1 i hi0 hi
          · rw [List.filter_append, ih3 hg2]
            simp
          · rw [rescoreColumns_concat matc mism gap _ _ _ _ ih1, ih4 hg1 hg2, hequ]
            congr 1
            simp [colScore]
        · rw [if_neg hu]
          by_cases hl : 0 < j
          · rw [if_pos hl]
            obtain ⟨ih1, ih2, ih3, ih4⟩ := ih (i + (j - 1)) (by omega)
              i (j - 1) rfl hi (by omega)
            have hc2 : j - 1 < s2.length := by omega
            have heql := nwScore_left_forced s1 s2 matc mism gap i j hd hu hl
            refine ⟨by simp [ih1], fun hg1 => ?_, fun hg2 => ?_, fun hg1 hg2 => ?_⟩
            · rw [List.filter_append, ih2 hg1]
              simp
            · rw [List.filter_append, ih3 hg2]
              simp only [List.filter_cons, List.filter_nil,
                decide_eq_true_eq, if_pos (chAt_ne_GAP s2 hg2 _ hc2)]
              exact take_concat_chAt_pred s2 j hl hj
            · rw [rescoreColumns_concat matc mism gap _ _ _ _ ih1, ih4 hg1 hg2, heql]
              simp [colScore]
          · exfalso
            have hj0 : j = 0 := by omega
            have hi0 : 0 < i := by omega
            subst hj0
            exact hu ⟨hi0, nwScore_up_at_zero s1 s2 matc mism gap i hi0⟩

/-- The traceback at `i = 0` (for any score table): only left moves
remain, so the first string fills with gaps while the second consumes
`seq2`. -/
theorem nwTraceback_row_zero (s1 s2 : List Char) (matc mism gap : Int)
    (tbl : Nat → Nat → Int) :
    ∀ j, j ≤ s2.length →
      nwTraceback s1 s2 matc mism gap tbl 0 j =
        (List.replicate j GAP, s2.take j) := by
  intro j
  induction j with
  | zero => intro _; rw [nwTraceback]; simp
  | succ j ihj =>
    intro hj
    rw [nwTraceback]
    rw [if_neg (by omega), if_neg (by omega), if_neg (by omega),
      if_pos (by omega)]
    simp only [Nat.add_sub_cancel]
    rw [ihj (by omega)]
    refine Prod.ext ?_ ?_
    · simp [List.replicate_succ']
    · simpa using take_concat_chAt s2 j (by omega)

/-- The traceback at `j = 0` with the real score table: the up move
always fires, so the second string fills with gaps while the first
consumes `seq1`. -/
theorem nwTraceback_col_zero (s1 s2 : List Char) (matc mism gap : Int) :
    ∀ i, i ≤ s1.length →
      nwTraceback s1 s2 matc mism gap (nwScore s1 s2 matc mism gap) i 0 =
        (s1.take i, List.replicate i GAP) := by
  intro i
  induction i with
  | zero => intro _; rw [nwTraceback]; simp
  | succ i ihi =>
    intro hi
    rw [nwTraceback]
    rw [if_neg (by omega), if_neg (by omega),
      if_pos ⟨by omega, nwScore_up_at_zero s1 s2 matc mism gap (i + 1) (by omega)⟩]
    simp only [Nat.add_sub_cancel]
    rw [ihi (by omega)]
    refine Prod.ext ?_ ?_
    · simpa using take_concat_chAt s1 i (by omega)
    · simp [List.replicate_succ']

end SetupGyraseModel

namespace Claims

open SetupGyraseModel GenerateAlignment

/-- C1 — Alignment round-trip invariant: for input sequences over the
residue alphabet (which does not contain the gap symbol, per the
spec's data model), the two strings returned by `needleman_wunsch` —
and by `simple_align`, which runs the same algorithm at fixed
parameters — have equal length, and deleting every gap from the first
reproduces `seq1`, from the second `seq2`. -/
theorem alignment_round_trip (s1 s2 : List Char) (matc mism gap : Int)
    (h1 : GAP ∉ s1) (h2 : GAP ∉ s2) :
    ((needleman_wunsch s1 s2 matc mism gap).1.length =
        (needleman_wunsch s1 s2 matc mism gap).2.length ∧
      (needleman_wunsch s1 s2 matc mism gap).1.filter (fun c => c ≠ GAP) = s1 ∧
      (needleman_wunsch s1 s2 matc mism gap).2.filter (fun c => c ≠ GAP) = s2) ∧
    ((simple_align s1 s2).1.length = (simple_align s1 s2).2.length ∧
      (simple_align s1 s2).1.filter (fun c => c ≠ GAP) = s1 ∧
      (simple_align s1 s2).2.filter (fun c => c ≠ GAP) = s2) := by
  have key : ∀ ma mi g : Int,
      (needleman_wunsch s1 s2 ma mi g).1.length =
        (needleman_wunsch s1 s2 ma mi g).2.length ∧
      (needleman_wunsch s1 s2 ma mi g).1.filter (fun c => c ≠ GAP) = s1 ∧
      (needleman_wunsch s1 s2 ma mi g).2.filter (fun c => c ≠ GAP) = s2 := by
    intro ma mi g
    obtain ⟨k1, k2, k3, _⟩ := nwTraceback_inv s1 s2 ma mi g
      (s1.length + s2.length) s1.length s2.length rfl le_rfl le_rfl
    refine ⟨k1, ?_, ?_⟩
    · have := k2 h1
      rwa [List.take_length] at this
    · have := k3 h2
      rwa [List.take_length] at this
  exact ⟨key matc mism gap, key 2 (-1) (-2)⟩

/-- Witness for C1 at the spec's concrete scenario. -/
theorem alignment_round_trip_witness :
    GAP ∉ ['A', 'C', 'G', 'T'] ∧ GAP ∉ ['A', 'G', 'T'] ∧
    (needleman_wunsch ['A', 'C', 'G', 'T'] ['A', 'G', 'T'] 2 (-1) (-2)).1.filter
      (fun c => c ≠ GAP) = ['A', 'C', 'G', 'T'] :=
  ⟨by decide, by decide,
    (alignment_round_trip ['A', 'C', 'G', 'T'] ['A', 'G', 'T'] 2 (-1) (-2)
      (by decide) (by decide)).1.2.1⟩

/-- C2 — Alignment score optimality: re-scoring the returned
alignment column by column (match/mismatch on two non-gap symbols,
gap penalty on any column containing a gap) gives exactly the
dynamic-programming optimum `score[m][n]`, for non-empty sequences
over the residue alphabet. -/
theorem alignment_score_optimal (s1 s2 : List Char) (matc mism gap : Int)
    (_hne1 : s1 ≠ []) (_hne2 : s2 ≠ []) (h1 : GAP ∉ s1) (h2 : GAP ∉ s2) :
    rescoreColumns matc mism gap (needleman_wunsch s1 s2 matc mism gap).1
      (needleman_wunsch s1 s2 matc mism gap).2 =
      nwScore s1 s2 matc mism gap s1.length s2.length := by
  obtain ⟨_, _, _, k4⟩ := nwTraceback_inv s1 s2 matc mism gap
    (s1.length + s2.length) s1.length s2.length rfl le_rfl le_rfl
  exact k4 h1 h2

/-- Witness for C2 at the spec's concrete scenario. -/
theorem alignment_score_optimal_witness :
    rescoreColumns 2 (-1) (-2)
        (needleman_wunsch ['A', 'C', 'G', 'T'] ['A', 'G', 'T'] 2 (-1) (-2)).1
        (needleman_wunsch ['A', 'C', 'G', 'T'] ['A', 'G', 'T'] 2 (-1) (-2)).2 =
      nwScore ['A', 'C', 'G', 'T'] ['A', 'G', 'T'] 2 (-1) (-2) 4 3 :=
  alignment_score_optimal ['A', 'C', 'G', 'T'] ['A', 'G', 'T'] 2 (-1) (-2)
    (by decide) (by decide) (by decide) (by decide)

/-- C3 — Traceback tie-break rule and determinism: at a cell with
`i > 0` and `j > 0` whose value equals the recomputed diagonal
candidate, the diagonal move is taken; otherwise, whenever the up
(consume-A) candidate reproduces the value, the up move is taken —
regardless of whether the left move would also reproduce it; and the
aligner is a pure function, so two calls on identical inputs return
identical string pairs. -/
theorem traceback_tie_break (s1 s2 : List Char) (matc mism gap : Int)
    (i j : Nat) :
    (0 < i → 0 < j →
      nwScore s1 s2 matc mism gap i j =
        nwScore s1 s2 matc mism gap (i - 1) (j - 1) +
          subScore s1 s2 matc mism i j →
      nwTraceback s1 s2 matc mism gap (nwScore s1 s2 matc mism gap) i j =
        ((nwTraceback s1 s2 matc mism gap (nwScore s1 s2 matc mism gap)
            (i - 1) (j - 1)).1 ++ [chAt s1 (i - 1)],
          (nwTraceback s1 s2 matc mism gap (nwScore s1 s2 matc mism gap)
            (i - 1) (j - 1)).2 ++ [chAt s2 (j - 1)])) ∧
    (0 < i →
      ¬(0 < j ∧ nwScore s1 s2 matc mism gap i j =
        nwScore s1 s2 matc mism gap (i - 1) (j - 1) +
          subScore s1 s2 matc mism i j) →
      nwScore s1 s2 matc mism gap i j =
        nwScore s1 s2 matc mism gap (i - 1) j + gap →
      nwTraceback s1 s2 matc mism gap (nwScore s1 s2 matc mism gap) i j =
        ((nwTraceback s1 s2 matc mism gap (nwScore s1 s2 matc mism gap)
            (i - 1) j).1 ++ [chAt s1 (i - 1)],
          (nwTraceback s1 s2 matc mism gap (nwScore s1 s2 matc mism gap)
            (i - 1) j).2 ++ [GAP])) ∧
    needleman_wunsch s1 s2 matc mism gap =
      needleman_wunsch s1 s2 matc mism gap := by
  refine ⟨?_, ?_, rfl⟩
  · intro hi hj heq
    rw [nwTraceback, if_neg (by omega), if_pos ⟨hi, hj, heq⟩]
  · intro hi hnd hequ
    rw [nwTraceback, if_neg (by omega),
      if_neg (fun h => hnd ⟨h.2.1, h.2.2⟩), if_pos ⟨hi, hequ⟩]

/-- Witness for C3: the diagonal branch fires at cell (1,1) for a
matching pair of one-letter sequences. -/
theorem traceback_tie_break_witness :
    nwTraceback ['G'] ['G'] 2 (-1) (-2) (nwScore ['G'] ['G'] 2 (-1) (-2)) 1 1 =
      ((nwTraceback ['G'] ['G'] 2 (-1) (-2)
          (nwScore ['G'] ['G'] 2 (-1) (-2)) 0 0).1 ++ [chAt ['G'] 0],
        (nwTraceback ['G'] ['G'] 2 (-1) (-2)
          (nwScore ['G'] ['G'] 2 (-1) (-2)) 0 0).2 ++ [chAt ['G'] 0]) :=
  (traceback_tie_break ['G'] ['G'] 2 (-1) (-2) 1 1).1 (by decide) (by decide)
    (by simp [nwScore, subScore, chAt])

/-- C4 counterexample — on the spec's own scenario alignment
`("ACGT", "A-GT")` the source's identity is 75 (denominator: non-gap
symbols of the first string, 4; resp. max of the two counts, 4), while
the claimed formula (denominator: columns where neither symbol is a
gap, 3) gives 100. -/
theorem identity_denominator_counterexample :
    SetupGyraseModel.calculate_identity ['A', 'C', 'G', 'T']
        ['A', GAP, 'G', 'T'] = 75 ∧
    GenerateAlignment.calculate_identity ['A', 'C', 'G', 'T']
        ['A', GAP, 'G', 'T'] = 75 ∧
    identity_claimed ['A', 'C', 'G', 'T'] ['A', GAP, 'G', 'T'] = 100 := by
  refine ⟨?_, ?_, ?_⟩
  · simp +decide [SetupGyraseModel.calculate_identity, GAP]
    norm_num
  · simp +decide [GenerateAlignment.calculate_identity, GAP]
    norm_num
  · simp +decide [identity_claimed, GAP]

/-- C4 as amended — each `calculate_identity` equals the matching
non-gap column count divided by its own denominator (the non-gap
count of the first aligned string for `setup_gyrase_model.py`, the
larger of the two non-gap counts for `generate_alignment.py`), times
100, and returns 0 when that denominator is 0. -/
theorem identity_definition (a1 a2 : List Char) :
    SetupGyraseModel.calculate_identity a1 a2 =
      identity_amended_first a1 a2 ∧
    GenerateAlignment.calculate_identity a1 a2 =
      identity_amended_longer a1 a2 := by
  constructor
  · rw [SetupGyraseModel.calculate_identity, identity_amended_first]
    simp [List.countP_eq_length_filter]
  · rw [GenerateAlignment.calculate_identity, identity_amended_longer]
    simp [List.countP_eq_length_filter]

/-- C5 — Concrete alignment scenario:
`align("ACGT","AGT")` with match 2, mismatch -1, gap -2 yields
`("ACGT", "A-GT")` (one gap opposite the 'C'), and the source's
identity on that alignment is 75 percent. -/
theorem concrete_alignment_scenario :
    needleman_wunsch ['A', 'C', 'G', 'T'] ['A', 'G', 'T'] 2 (-1) (-2) =
      (['A', 'C', 'G', 'T'], ['A', GAP, 'G', 'T']) ∧
    SetupGyraseModel.calculate_identity ['A', 'C', 'G', 'T']
      ['A', GAP, 'G', 'T'] = 75 := by
  constructor
  · simp [needleman_wunsch, nwTraceback, nwScore, subScore, chAt, GAP]
  · simp +decide [SetupGyraseModel.calculate_identity, GAP]
    norm_num

/-- C6 counterexample — `needleman_wunsch` performs no emptiness
validation: on an empty first sequence it returns an ordinary
alignment instead of failing. -/
theorem empty_input_returns_alignment :
    needleman_wunsch [] ['A'] 2 (-1) (-2) = ([GAP], ['A']) := by
  simp [needleman_wunsch, nwTraceback, nwScore, subScore, chAt, GAP]

/-- C6 as amended — `needleman_wunsch` does not fail on empty input:
it pads the empty side with gaps, returning `(gap^n, seq2)` when the
first sequence is empty and `(seq1, gap^m)` when the second is. -/
theorem empty_input_no_failure (s1 s2 : List Char) (matc mism gap : Int) :
    needleman_wunsch [] s2 matc mism gap =
      (List.replicate s2.length GAP, s2) ∧
    needleman_wunsch s1 [] matc mism gap =
      (s1, List.replicate s1.length GAP) := by
  constructor
  · have := nwTraceback_row_zero ([] : List Char) s2 matc mism gap
      (nwScore [] s2 matc mism gap) s2.length le_rfl
    rw [needleman_wunsch]
    simpa using this
  · have := nwTraceback_col_zero s1 ([] : List Char) matc mism gap
      s1.length le_rfl
    rw [needleman_wunsch]
    simpa using this

end Claims

namespace GenerateConstraints

/-- Membership in a conditionally-empty list. -/
theorem mem_ite_nil {α : Type} (P : Prop) [Decidable P] (l : List α)
    (x : α) : x ∈ (if P then l else []) ↔ P ∧ x ∈ l := by
  by_cases h : P <;> simp [h]

end GenerateConstraints

namespace Claims

open StructuralAlignment GenerateConstraints

/-- C9 — Contact cutoff semantics and monotonicity: over the point
sets the contact scan considers (backbone-named atoms of the first
two chains), `find_interface_contacts` returns exactly the labelled
pairs at Euclidean distance strictly below the cutoff (a pair at
exactly the cutoff is excluded, since `dist < cutoff` iff
`0 ≤ cutoff ∧ dist² < cutoff²`); and for cutoffs `0 < c1 < c2` every
contact found at `c1` is found at `c2`. -/
theorem contact_cutoff_exact_monotone :
    (∀ (ca : String) (resA : List (Nat × List (String × Pt)))
        (cb : String) (resB : List (Nat × List (String × Pt)))
        (rest : Coords) (cutoff : ℚ) (c : Contact),
      c ∈ find_interface_contacts ((ca, resA) :: (cb, resB) :: rest) cutoff ↔
        ∃ atoms1 p1 atoms2 p2,
          (c.res1, atoms1) ∈ resA ∧ (c.atom1, p1) ∈ atoms1 ∧
          (c.res2, atoms2) ∈ resB ∧ (c.atom2, p2) ∈ atoms2 ∧
          c.chain1 = ca ∧ c.chain2 = cb ∧
          c.atom1 ∈ backboneAtoms ∧ c.atom2 ∈ backboneAtoms ∧
          0 ≤ cutoff ∧ sqDist p1 p2 < cutoff ^ 2 ∧
          c.dist_sq = sqDist p1 p2) ∧
    (∀ (coords : Coords) (c1 c2 : ℚ), 0 < c1 → c1 < c2 →
      ∀ x ∈ find_interface_contacts coords c1,
        x ∈ find_interface_contacts coords c2) := by
  have key : ∀ (ca : String) (resA : List (Nat × List (String × Pt)))
      (cb : String) (resB : List (Nat × List (String × Pt)))
      (rest : Coords) (cutoff : ℚ) (c : Contact),
      c ∈ find_interface_contacts ((ca, resA) :: (cb, resB) :: rest) cutoff ↔
        ∃ atoms1 p1 atoms2 p2,
          (c.res1, atoms1) ∈ resA ∧ (c.atom1, p1) ∈ atoms1 ∧
          (c.res2, atoms2) ∈ resB ∧ (c.atom2, p2) ∈ atoms2 ∧
          c.chain1 = ca ∧ c.chain2 = cb ∧
          c.atom1 ∈ backboneAtoms ∧ c.atom2 ∈ backboneAtoms ∧
          0 ≤ cutoff ∧ sqDist p1 p2 < cutoff ^ 2 ∧
          c.dist_sq = sqDist p1 p2 := by
    intro ca resA cb resB rest cutoff c
    obtain ⟨c1, r1n, a1n, c2, r2n, a2n, ds⟩ := c
    simp only [find_interface_contacts, List.mem_flatMap, mem_ite_nil,
      List.mem_filterMap, Option.ite_none_right_eq_some]
    constructor
    · rintro ⟨⟨r1v, atoms1⟩, hr1, ⟨⟨a1v, p1⟩, ha1, hbb1,
        ⟨r2v, atoms2⟩, hr2, ⟨a2v, p2⟩, ha2, ⟨hbb2, hc0, hlt⟩, heq⟩⟩
      cases heq
      exact ⟨atoms1, p1, atoms2, p2, hr1, ha1, hr2, ha2, rfl, rfl,
        hbb1, hbb2, hc0, hlt, rfl⟩
    · rintro ⟨atoms1, p1, atoms2, p2, hr1, ha1, hr2, ha2, rfl, rfl,
        hbb1, hbb2, hc0, hlt, rfl⟩
      exact ⟨(r1n, atoms1), hr1, ⟨(a1n, p1), ha1, hbb1,
        (r2n, atoms2), hr2, ⟨(a2n, p2), ha2, ⟨hbb2, hc0, hlt⟩, rfl⟩⟩⟩
  refine ⟨key, ?_⟩
  intro coords c1 c2 hc1 hc12 x hx
  match coords with
  | [] => simp [find_interface_contacts] at hx
  | [ch] => simp [find_interface_contacts] at hx
  | (ca, resA) :: (cb, resB) :: rest =>
    rw [key ca resA cb resB rest c1 x] at hx
    rw [key ca resA cb resB rest c2 x]
    obtain ⟨atoms1, p1, atoms2, p2, hr1, ha1, hr2, ha2, h5, h6,
      hbb1, hbb2, hc0, hlt, hds⟩ := hx
    refine ⟨atoms1, p1, atoms2, p2, hr1, ha1, hr2, ha2, h5, h6,
      hbb1, hbb2, by linarith, ?_, hds⟩
    calc sqDist p1 p2 < c1 ^ 2 := hlt
      _ ≤ c2 ^ 2 := by
        apply pow_le_pow_left₀ (le_of_lt hc1) (le_of_lt hc12)

/-- Witness for C9: the concrete two-chain input has its contact at
squared distance 9 for cutoff 4, hence also for cutoff 8. -/
theorem contact_cutoff_exact_monotone_witness :
    contactEx ∈ find_interface_contacts coordsEx 8 :=
  contact_cutoff_exact_monotone.2 coordsEx 4 8 (by norm_num) (by norm_num)
    contactEx (by
      simp +decide [find_interface_contacts, coordsEx, contactEx,
        backboneAtoms, StructuralAlignment.sqDist, Fin.sum_univ_three])

/-- C10 — Implicit contact-finder filtering invariant: every returned
contact carries atom names from the hard-coded backbone set and the
chain labels of the first two chains of the mapping; chains past the
second never influence the output; and with fewer than two chains the
result is the empty list rather than an error. -/
theorem contact_filtering_invariant :
    (∀ (ca : String) (resA : List (Nat × List (String × Pt)))
        (cb : String) (resB : List (Nat × List (String × Pt)))
        (rest : Coords) (cutoff : ℚ),
      ∀ c ∈ find_interface_contacts ((ca, resA) :: (cb, resB) :: rest) cutoff,
        c.chain1 = ca ∧ c.chain2 = cb ∧
        c.atom1 ∈ backboneAtoms ∧ c.atom2 ∈ backboneAtoms) ∧
    (∀ (ca : String) (resA : List (Nat × List (String × Pt)))
        (cb : String) (resB : List (Nat × List (String × Pt)))
        (rest rest2 : Coords) (cutoff : ℚ),
      find_interface_contacts ((ca, resA) :: (cb, resB) :: rest) cutoff =
        find_interface_contacts ((ca, resA) :: (cb, resB) :: rest2) cutoff) ∧
    (∀ (coords : Coords) (cutoff : ℚ), coords.length < 2 →
      find_interface_contacts coords cutoff = []) := by
  refine ⟨?_, ?_, ?_⟩
  · intro ca resA cb resB rest cutoff c hc
    obtain ⟨c1, r1n, a1n, c2, r2n, a2n, ds⟩ := c
    simp only [find_interface_contacts, List.mem_flatMap, mem_ite_nil,
      List.mem_filterMap, Option.ite_none_right_eq_some] at hc
    obtain ⟨⟨r1v, atoms1⟩, _, ⟨⟨a1v, p1⟩, _, hbb1,
      ⟨r2v, atoms2⟩, _, ⟨a2v, p2⟩, _, ⟨hbb2, _, _⟩, heq⟩⟩ := hc
    cases heq
    exact ⟨rfl, rfl, hbb1, hbb2⟩
  · intro ca resA cb resB rest rest2 cutoff
    rfl
  · intro coords cutoff hlen
    match coords with
    | [] => rfl
    | [ch] => rfl
    | a :: b :: rest =>
      simp at hlen
      omega

/-- Witness for C10 at the concrete two-chain input. -/
theorem contact_filtering_invariant_witness :
    contactEx.chain1 = "A" ∧ contactEx.chain2 = "B" ∧
    contactEx.atom1 ∈ backboneAtoms ∧ contactEx.atom2 ∈ backboneAtoms :=
  contact_filtering_invariant.1 "A" [(1, [("CA", ![0, 0, 0])])]
    "B" [(2, [("CA", ![3, 0, 0])])] [] 8 contactEx (by
      simp +decide [find_interface_contacts, contactEx,
        backboneAtoms, StructuralAlignment.sqDist, Fin.sum_univ_three])

end Claims

namespace StructuralAlignment

/-- The determinant of a matrix with orthonormal columns is 1 or -1. -/
theorem det_pm_one_of_orthogonal (A : Mat3) (h : A.transpose * A = 1) :
    A.det = 1 ∨ A.det = -1 := by
  have hdet := congrArg Matrix.det h
  rw [Matrix.det_mul, Matrix.det_transpose, Matrix.det_one] at hdet
  exact mul_self_eq_one_iff.mp hdet

/-- Negating the last row of `Vt` flips the sign of its
determinant. -/
theorem det_negate_last_row (Vt : Mat3) :
    (Matrix.updateRow Vt 2 (-(Vt 2))).det = -Vt.det := by
  have h : -(Vt 2) = (-1 : ℚ) • Vt 2 := by
    simp
  rw [h, Matrix.det_updateRow_smul, Matrix.updateRow_eq_self]
  ring

end StructuralAlignment

namespace Claims

open StructuralAlignment

/-- C7 — Superposition proper rotation: whenever the SVD factors `U`
and `Vt` are orthogonal (which numpy's SVD guarantees for any input,
degenerate or not), the rotation built by `kabsch_align` /
`extract_transformation` — reflection correction included — has
determinant exactly 1, in particular within `[0.999, 1.001]` and
never -1. -/
theorem fit_rotation_proper (U Vt : Mat3)
    (hU : U.transpose * U = 1) (hV : Vt.transpose * Vt = 1) :
    (kabsch_rotation U Vt).det = 1 ∧
    (999 / 1000 : ℚ) ≤ (kabsch_rotation U Vt).det ∧
    (kabsch_rotation U Vt).det ≤ 1001 / 1000 := by
  have hU2 := det_pm_one_of_orthogonal U hU
  have hV2 := det_pm_one_of_orthogonal Vt hV
  have hmain : (kabsch_rotation U Vt).det = 1 := by
    rw [kabsch_rotation]
    by_cases hd : (Vt.transpose * U.transpose).det < 0
    · rw [if_pos hd]
      rw [Matrix.det_mul, Matrix.det_transpose, Matrix.det_transpose,
        det_negate_last_row]
      rw [Matrix.det_mul, Matrix.det_transpose, Matrix.det_transpose] at hd
      rcases hU2 with h1 | h1 <;> rcases hV2 with h2 | h2 <;>
        rw [h1, h2] at hd ⊢ <;> norm_num at hd ⊢
    · rw [if_neg hd]
      rw [Matrix.det_mul, Matrix.det_transpose, Matrix.det_transpose]
      rw [Matrix.det_mul, Matrix.det_transpose, Matrix.det_transpose] at hd
      rcases hU2 with h1 | h1 <;> rcases hV2 with h2 | h2 <;>
        rw [h1, h2] at hd ⊢ <;> norm_num at hd ⊢
  refine ⟨hmain, ?_, ?_⟩ <;> rw [hmain] <;> norm_num

/-- Witness for C7 with both SVD factors the identity. -/
theorem fit_rotation_proper_witness :
    ((1 : Mat3).transpose * 1 = 1) ∧ (kabsch_rotation 1 1).det = 1 :=
  ⟨by simp, (fit_rotation_proper 1 1 (by simp) (by simp)).1⟩

/-- C8 counterexample — `calculate_rmsd` does not fail on a length
mismatch when one point set is a singleton: numpy broadcasts the
subtraction and a numeric RMSD is returned (here the mean squared
deviation is 1, i.e. RMSD 1, for 1 point against 3). -/
theorem rmsd_broadcast_counterexample :
    calculate_rmsd_sq [ptEx0] [ptEx1, ptEx2, ptEx3] = some 1 := by
  simp +decide [calculate_rmsd_sq, sqDist, ptEx0, ptEx1, ptEx2, ptEx3,
    Fin.sum_univ_three]
  norm_num

/-- C8 as amended — the superposer has no typed validation:
`kabsch_align` runs no point-count check (for any equal-length inputs,
three points or fewer included, it returns a transformation), a length
mismatch aborts it only through the matrix-product shape error, and
`calculate_rmsd` aborts on a length mismatch only when neither set is
a singleton — a singleton broadcasts and a value is returned. -/
theorem fit_rmsd_validation (svd : Mat3 → SVD3) (P Q : List Pt) :
    (P.length = Q.length → ∃ Rt, kabsch_align svd P Q = Except.ok Rt) ∧
    (P.length ≠ Q.length →
      kabsch_align svd P Q = Except.error "shape mismatch in matmul") ∧
    ((calculate_rmsd_sq P Q).isSome ↔
      P.length = Q.length ∨ P.length = 1 ∨ Q.length = 1) := by
  refine ⟨?_, ?_, ?_⟩
  · intro h
    rw [kabsch_align, if_pos h]
    exact ⟨_, rfl⟩
  · intro h
    rw [kabsch_align, if_neg h]
  · by_cases h1 : P.length = Q.length
    · rw [calculate_rmsd_sq, if_pos h1]
      simp [h1]
    · by_cases h2 : P.length = 1
      · rw [calculate_rmsd_sq, if_neg h1, if_pos h2]
        simp [h1, h2]
      · by_cases h3 : Q.length = 1
        · rw [calculate_rmsd_sq, if_neg h1, if_neg h2, if_pos h3]
          simp [h1, h2, h3]
        · rw [calculate_rmsd_sq, if_neg h1, if_neg h2, if_neg h3]
          simp [h1, h2, h3]

/-- Witness for C8: a one-point fit succeeds, a length mismatch aborts
the fit, and the broadcastable RMSD case is defined. -/
theorem fit_rmsd_validation_witness :
    (∃ Rt, kabsch_align svdTriv [ptEx0] [ptEx0] = Except.ok Rt) ∧
    kabsch_align svdTriv [ptEx0] [] =
      Except.error "shape mismatch in matmul" ∧
    ((calculate_rmsd_sq [ptEx0] [ptEx1, ptEx2, ptEx3]).isSome ↔
      [ptEx0].length = [ptEx1, ptEx2, ptEx3].length ∨
      [ptEx0].length = 1 ∨ [ptEx1, ptEx2, ptEx3].length = 1) :=
  ⟨(fit_rmsd_validation svdTriv [ptEx0] [ptEx0]).1 rfl,
    (fit_rmsd_validation svdTriv [ptEx0] []).2.1 (by decide),
    (fit_rmsd_validation svdTriv [ptEx0] [ptEx1, ptEx2, ptEx3]).2.2⟩

end Claims
